import Mathlib

set_option maxRecDepth 100000

/-!
Verification development for the glofas-anadyr bias-correction and
cross-validation engine.

The Python sources are shallowly embedded over lists of rows with rational
values.  A missing value (NaN in a pandas column) is modelled as `none`.
Calendar arithmetic (extracting year and month from a date) is abstracted
into a `Calendar` record of functions on integer day numbers; the one-day
backward shift applied to simulation timestamps is subtraction of 1.
External statistical library calls (hydroeval metric formulas, the xsdba
DetrendedQuantileMapping train/adjust pair) are parameters: the repository
code only routes their inputs and outputs and catches their exceptions, so
an exception raised by such a call is modelled as the oracle returning
`none`.
-/

namespace Glofas

/-- Abstraction of the calendar: a date is an integer day number, and the
year and month of a date are arbitrary functions of it. -/
structure Calendar where
  yearOf : ℤ → ℤ
  monthOf : ℤ → ℤ

/-- One row of an observed-discharge CSV: columns `date`, `q_cms`
(`none` models NaN). -/
structure ObsRow where
  date : ℤ
  q_cms : Option ℚ
deriving DecidableEq

/-- One row of a simulated-discharge CSV: column `datetime` reduced to its
date part, column `q_raw` (`none` models NaN). -/
structure SimRow where
  date : ℤ
  q_raw : Option ℚ
deriving DecidableEq

/-- One row of the Aligned Pair Series built by `read_station_data`. -/
structure AlignedRow where
  date : ℤ
  obs : ℚ
  sim : ℚ
  year : ℤ
  month : ℤ
deriving DecidableEq

/-- The strictly-positive floor added to both columns at ingestion
(`epsilon = 0.01` in the source). -/
def epsilon : ℚ := 1 / 100

/-- Embedding of `read_station_data` (scripts/cv_glofas.py, also
`read_station_data_cv` in src/glofas/io.py): shift simulation dates back one
day, inner-join on date, drop rows missing either value, derive year and
month, restrict to years 1979–1996 and months 5–10, then add `epsilon` to
both columns. -/
def read_station_data (cal : Calendar) (obsTab : List ObsRow)
    (simTab : List SimRow) : List AlignedRow :=
  let simShifted := simTab.map (fun s => { s with date := s.date - 1 })
  let merged := obsTab.flatMap (fun o =>
    (simShifted.filter (fun s => decide (s.date = o.date))).map
      (fun s => (o.date, o.q_cms, s.q_raw)))
  let noNa : List (ℤ × ℚ × ℚ) := merged.filterMap (fun t =>
    match t.2.1, t.2.2 with
    | some ov, some sv => some (t.1, ov, sv)
    | _, _ => none)
  let withYM := noNa.map (fun t =>
    ({ date := t.1, obs := t.2.1, sim := t.2.2,
       year := cal.yearOf t.1, month := cal.monthOf t.1 } : AlignedRow))
  let seasonal := withYM.filter (fun r =>
    decide (1979 ≤ r.year) && decide (r.year ≤ 1996) &&
    decide (5 ≤ r.month) && decide (r.month ≤ 10))
  seasonal.map (fun r => { r with obs := r.obs + epsilon, sim := r.sim + epsilon })

/-- Number of rows of a given year: `data.groupby("year")["obs"].count()`
evaluated at `y` (after alignment every `obs` entry is non-missing, so the
count is the row count). -/
def yearCount (data : List AlignedRow) (y : ℤ) : ℕ :=
  (data.filter (fun r => decide (r.year = y))).length

/-- The distinct years occurring in the aligned data. -/
def uniqueYears (data : List AlignedRow) : List ℤ :=
  (data.map (fun r => r.year)).dedup

/-- Insertion into a list sorted in ascending order. -/
def insertSorted (y : ℤ) : List ℤ → List ℤ
  | [] => [y]
  | x :: xs => if y ≤ x then y :: x :: xs else x :: insertSorted y xs

/-- Ascending sort of a list of integers, modelling Python `sorted`. -/
def sortInts (l : List ℤ) : List ℤ := l.foldr insertSorted []

/-- The valid years of `loocv_splits`: years whose observation count is
strictly greater than 90, in ascending order. -/
def validYears (data : List AlignedRow) : List ℤ :=
  sortInts ((uniqueYears data).filter (fun y => decide (90 < yearCount data y)))

/-- One LOOCV fold as assembled by `loocv_splits`. -/
structure Split where
  train : List AlignedRow
  test : List AlignedRow
  test_year : ℤ
  n_train_years : ℕ
deriving DecidableEq

/-- The body of the `for test_year in valid_years` loop of `loocv_splits`:
train on all other valid years, test on the given year, and keep the fold
only when both subsets are nonempty. -/
def loocvFold (data : List AlignedRow) (valid : List ℤ) (ty : ℤ) :
    Option Split :=
  let train_years := valid.filter (fun y => decide (y ≠ ty))
  let train := data.filter (fun r => decide (r.year ∈ train_years))
  let test := data.filter (fun r => decide (r.year = ty))
  if 0 < train.length ∧ 0 < test.length then
    some { train := train, test := test, test_year := ty,
           n_train_years := train_years.length }
  else none

/-- Embedding of `loocv_splits` (scripts/cv_glofas.py, duplicated in
src/glofas/process.py): if fewer than 2 valid years exist return the empty
list; otherwise run the fold-building loop over the valid years. -/
def loocv_splits (data : List AlignedRow) : List Split :=
  let valid := validYears data
  if valid.length < 2 then []
  else valid.filterMap (loocvFold data valid)

/-- The bundle of metric values returned by `calculate_metrics`. -/
structure Metrics where
  nse : ℚ
  log_nse : ℚ
  kgeprime : ℚ
  kgenp : ℚ
  pbias : ℚ
  rmse : ℚ
deriving DecidableEq

/-- The external hydroeval metric formulas, abstracted: each takes the
masked `sim` and `obs` arrays (for `log_nse`, the composition with the
elementwise logarithm is folded into the abstract function). -/
structure Evaluators where
  nse : List ℚ → List ℚ → ℚ
  log_nse : List ℚ → List ℚ → ℚ
  kgeprime : List ℚ → List ℚ → ℚ
  kgenp : List ℚ → List ℚ → ℚ
  pbias : List ℚ → List ℚ → ℚ
  rmse : List ℚ → List ℚ → ℚ

/-- The numpy comparison `v > 0` on a possibly-NaN value: NaN compares
false. -/
def posOpt : Option ℚ → Bool
  | some q => decide (0 < q)
  | none => false

/-- The pairs surviving the mask `(obs > 0) & (sim > 0)` of
`calculate_metrics`, with their values extracted. -/
def validPairs (obs sim : List (Option ℚ)) : List (ℚ × ℚ) :=
  (obs.zip sim).filterMap (fun p =>
    match p.1, p.2 with
    | some ov, some sv =>
        if 0 < ov ∧ 0 < sv then some (ov, sv) else none
    | _, _ => none)

/-- Embedding of `calculate_metrics` (scripts/cv_glofas.py, duplicated in
src/glofas/process.py): mask to pairs with both values positive (NaN
masked out), return `none` when fewer than 10 pairs survive, otherwise the
metric bundle computed by the external evaluators on the masked arrays. -/
def calculate_metrics (ev : Evaluators) (obs sim : List (Option ℚ)) :
    Option Metrics :=
  let pairs := validPairs obs sim
  let o := pairs.map Prod.fst
  let s := pairs.map Prod.snd
  if o.length < 10 then none
  else
    some { nse := ev.nse s o, log_nse := ev.log_nse s o,
           kgeprime := ev.kgeprime s o, kgenp := ev.kgenp s o,
           pbias := ev.pbias s o, rmse := ev.rmse s o }

/-- Correction type tag of a results row: the strings "Raw" and "DQM". -/
inductive CorrType
  | Raw
  | DQM
deriving DecidableEq

/-- One row of the assembled results table of `process_station`; the `nq`
field uses `none` for the string sentinel "raw". -/
structure ResultRow where
  metrics : Metrics
  ctype : CorrType
  nq : Option ℕ
  test_year : ℤ
  n_train_years : ℕ
deriving DecidableEq

/-- The raw-benchmark row of one fold: metrics of the test subset, tagged
"Raw"; produced only when `calculate_metrics` returns a result. -/
def rawResult (ev : Evaluators) (s : Split) : Option ResultRow :=
  (calculate_metrics ev (s.test.map (fun r => some r.obs))
      (s.test.map (fun r => some r.sim))).map
    (fun m => { metrics := m, ctype := CorrType.Raw, nq := none,
                test_year := s.test_year, n_train_years := s.n_train_years })

/-- One (fold, quantile-count) cell of the grid.  The oracle models the
xsdba `DetrendedQuantileMapping.train` / `adjust` pair applied to the
fold: `none` means the library raised (the cell's `except` path), `some
corrected` the adjusted test series (entries may be NaN).  A `none` from
`calculate_metrics` likewise yields no row. -/
def dqmCell (ev : Evaluators) (oracle : Split → ℕ → Option (List (Option ℚ)))
    (s : Split) (nq : ℕ) : Option ResultRow :=
  (oracle s nq).bind (fun corrected =>
    (calculate_metrics ev (s.test.map (fun r => some r.obs)) corrected).map
      (fun m => { metrics := m, ctype := CorrType.DQM, nq := some nq,
                  test_year := s.test_year,
                  n_train_years := s.n_train_years }))

/-- All rows one fold contributes to the results table: the raw-benchmark
row when available, then one row per quantile count whose cell succeeded. -/
def splitResults (ev : Evaluators)
    (oracle : Split → ℕ → Option (List (Option ℚ)))
    (quantiles : List ℕ) (s : Split) : List ResultRow :=
  (rawResult ev s).toList ++ quantiles.filterMap (dqmCell ev oracle s)

/-- The value `process_station` returns to its caller. -/
inductive StationStatus
  | noData
  | insufficientData
  | noResults
  | success (rows : ℕ)
deriving DecidableEq, Repr

/-- Embedding of `process_station` (scripts/cv_glofas.py): align the
station's tables, return "No Data" if nothing aligned, build the LOOCV
folds, return "Insufficient Data" if none, assemble the results grid,
return the row count on success and "No Results" if the grid is empty. -/
def process_station (cal : Calendar) (ev : Evaluators)
    (oracle : Split → ℕ → Option (List (Option ℚ)))
    (obsTab : List ObsRow) (simTab : List SimRow)
    (quantiles : List ℕ) : StationStatus :=
  let data := read_station_data cal obsTab simTab
  if data.length = 0 then StationStatus.noData
  else
    let splits := loocv_splits data
    if splits.length = 0 then StationStatus.insufficientData
    else
      let results := splits.flatMap (splitResults ev oracle quantiles)
      if results.length = 0 then StationStatus.noResults
      else StationStatus.success results.length

/-- One row of the full raw-simulation series of `read_all_raw_data`:
the shifted date and the epsilon-floored value (`none` models NaN, which
epsilon addition leaves NaN). -/
structure RawSimRow where
  date : ℤ
  sim : Option ℚ
deriving DecidableEq

/-- One row of a written correction output table: columns `date`, `q_cor`. -/
structure CorRow where
  date : ℤ
  q_cor : Option ℚ
deriving DecidableEq

/-- Embedding of `read_all_raw_data` (scripts/glofas_correction.py): shift
each simulation date back one day and add the epsilon floor; no rows are
dropped. -/
def read_all_raw_data (simTab : List SimRow) : List RawSimRow :=
  simTab.map (fun r =>
    { date := r.date - 1, sim := r.q_raw.map (fun v => v + epsilon) })

/-- The months eligible for DQM correction (May–September). -/
def correctionMonths : List ℤ := [5, 6, 7, 8, 9]

/-- Insertion into a list of correction rows sorted by date. -/
def insertByDate (r : CorRow) : List CorRow → List CorRow
  | [] => [r]
  | x :: xs => if r.date ≤ x.date then r :: x :: xs else x :: insertByDate r xs

/-- Sort of the combined correction table by date
(`result_df.sort_values("date")`). -/
def sortByDate (l : List CorRow) : List CorRow := l.foldr insertByDate []

/-- The `except` fallback of `correct_station` when DQM training or
adjustment raises: every correction-season row keeps its raw value with
the epsilon floor removed, `q_cor = sim - epsilon`, with no clamp. -/
def dqmFallback (toCorrect : List RawSimRow) : List CorRow :=
  toCorrect.map (fun r =>
    ({ date := r.date, q_cor := r.sim.map (fun x => x - epsilon) } : CorRow))

/-- The correction-season rows of `correct_station` as a function of the
train-and-adjust outcome: on success of the right length the adjusted
values with epsilon removed and clamped at zero; a raised exception
(`none`) or a wrong-length result (which makes the pandas column
assignment raise, caught by the same `except`) falls back to
`dqmFallback`. -/
def appliedCorrection (toCorrect : List RawSimRow)
    (res : Option (List (Option ℚ))) : List CorRow :=
  match res with
  | some vals =>
      if vals.length = toCorrect.length then
        List.zipWith
          (fun (r : RawSimRow) (v : Option ℚ) =>
            ({ date := r.date,
               q_cor := v.map (fun x => max (x - epsilon) 0) } : CorRow))
          toCorrect vals
      else dqmFallback toCorrect
  | none => dqmFallback toCorrect

/-- Embedding of `correct_station` (scripts/glofas_correction.py).  The
`adjust` oracle models the xsdba train-then-adjust call on the
correction-season simulated values: `none` means the library raised.
Returns `none` for the early exits (no training data, no raw data), in
which case nothing is written. -/
def correct_station (cal : Calendar)
    (adjust : List (Option ℚ) → Option (List (Option ℚ)))
    (obsTab : List ObsRow) (simTab : List SimRow) : Option (List CorRow) :=
  let train_data := read_station_data cal obsTab simTab
  if train_data.length = 0 then none
  else
    let all_raw := read_all_raw_data simTab
    if all_raw.length = 0 then none
    else
      let toCorrect := all_raw.filter
        (fun r => decide (cal.monthOf r.date ∈ correctionMonths))
      let rawOnly := all_raw.filter
        (fun r => !(decide (cal.monthOf r.date ∈ correctionMonths)))
      let corrected : List CorRow :=
        if 0 < toCorrect.length then
          appliedCorrection toCorrect (adjust (toCorrect.map (fun r => r.sim)))
        else []
      let rawRows := rawOnly.map (fun r =>
        ({ date := r.date,
           q_cor := r.sim.map (fun x => max (x - epsilon) 0) } : CorRow))
      some (sortByDate (corrected ++ rawRows))

/-- The correction-season rows of `correct_new_data` as a function of the
load-and-adjust outcome: unlike `correct_station` there is no fallback —
a raised exception (`none`) or a wrong-length result propagates to the
function's own catch-all `except`. -/
def appliedNewCorrection (toCorrect : List (ℤ × Option ℚ))
    (res : Option (List (Option ℚ))) : Option (List CorRow) :=
  match res with
  | none => none
  | some vals =>
      if vals.length = toCorrect.length then
        some (List.zipWith
          (fun (p : ℤ × Option ℚ) (v : Option ℚ) =>
            ({ date := p.1,
               q_cor := v.map (fun x => max (x - epsilon) 0) } : CorRow))
          toCorrect vals)
      else none

/-- Embedding of `correct_new_data` (src/glofas/process.py).  The
`loadAdjust` oracle models `load_dqm_model` followed by `dqm.adjust`: the
outer `none` is a missing persisted model file (`load_dqm_model` raises),
an inner `none` a failure of `adjust`.  All failures are caught by the
function's own `except`, which returns an empty table with the columns
`date`, `q_cor` (the fields of `CorRow`); the embedding is a total
function, mirroring that the source never propagates an exception.
Correction is applied only to months 5–9; other months pass the raw value
through clamped at zero. -/
def correct_new_data (cal : Calendar)
    (loadAdjust : Option (List (Option ℚ) → Option (List (Option ℚ))))
    (raw : List SimRow) : List CorRow :=
  if raw.length = 0 then []
  else
    let rows := raw.map (fun r => (r.date - 1, r.q_raw))
    let toCorrect := rows.filter
      (fun p => decide (cal.monthOf p.1 ∈ correctionMonths))
    let rawOnly := rows.filter
      (fun p => !(decide (cal.monthOf p.1 ∈ correctionMonths)))
    let corrected : Option (List CorRow) :=
      if 0 < toCorrect.length then
        appliedNewCorrection toCorrect
          (loadAdjust.bind (fun adj =>
            adj (toCorrect.map (fun p => p.2.map (fun v => v + epsilon)))))
      else some []
    (corrected.map (fun inRows =>
      sortByDate (inRows ++ rawOnly.map (fun p =>
        ({ date := p.1, q_cor := p.2.map (fun x => max x 0) } : CorRow))))).getD []

/-- A calendar placing day numbers 0–90 in May–October 1990 and 91–181 in
May–October 1991, as the real calendar does for two runs of 91 in-season
days. -/
def calTwoYears : Calendar :=
  { yearOf := fun d => if d < 91 then 1990 else 1991
    monthOf := fun _ => 6 }

/-- Aligned data with a single year (1990) of 91 in-season observations:
one valid year, so the split generator must return no folds. -/
def data91 : List AlignedRow :=
  (List.range 91).map (fun i =>
    { date := (i : ℤ), obs := 1, sim := 1, year := 1990, month := 6 })

/-- Aligned data with two years of 91 in-season observations each. -/
def data182 : List AlignedRow :=
  (List.range 182).map (fun i =>
    { date := (i : ℤ), obs := 1, sim := 1,
      year := if i < 91 then 1990 else 1991, month := 6 })

/-- A trivial instantiation of the external metric formulas. -/
def evZero : Evaluators :=
  { nse := fun _ _ => 0, log_nse := fun _ _ => 0, kgeprime := fun _ _ => 0,
    kgenp := fun _ _ => 0, pbias := fun _ _ => 0, rmse := fun _ _ => 0 }

/-- An oracle on which every DQM training/adjustment call raises. -/
def oracleFail : Split → ℕ → Option (List (Option ℚ)) := fun _ _ => none

/-- Observed table for the station of the tri-state analysis: 182 days of
constant negative observed discharge (a malformed gauge record). -/
def obsTabNeg : List ObsRow :=
  (List.range 182).map (fun i => { date := (i : ℤ), q_cms := some (-1) })

/-- Simulated table matching `obsTabNeg` after the one-day shift. -/
def simTabPos : List SimRow :=
  (List.range 182).map (fun i => { date := (i : ℤ) + 1, q_raw := some 1 })

/-- Observed table with non-negative values, same dates. -/
def obsTabPos : List ObsRow :=
  (List.range 182).map (fun i => { date := (i : ℤ), q_cms := some 2 })

/-- Decidable test for the tri-state return contract of `process_station`:
a row count on success, "No Data", or "Insufficient Data". -/
def isTriState : StationStatus → Bool
  | StationStatus.noData => true
  | StationStatus.insufficientData => true
  | StationStatus.success _ => true
  | StationStatus.noResults => false

section HelperLemmas

theorem mem_insertSorted {a y : ℤ} {l : List ℤ} :
    a ∈ insertSorted y l ↔ a = y ∨ a ∈ l := by
  induction l with
  | nil => simp [insertSorted]
  | cons x xs ih =>
      by_cases h : y ≤ x
      · simp [insertSorted, h]
      · simp only [insertSorted, if_neg h, List.mem_cons, ih]
        tauto

theorem count_insertSorted (a y : ℤ) (l : List ℤ) :
    List.count a (insertSorted y l) = List.count a (y :: l) := by
  induction l with
  | nil => simp [insertSorted]
  | cons x xs ih =>
      by_cases h : y ≤ x
      · simp [insertSorted, h]
      · simp only [insertSorted, if_neg h, List.count_cons, ih]
        ring

theorem count_sortInts (a : ℤ) (l : List ℤ) :
    List.count a (sortInts l) = List.count a l := by
  induction l with
  | nil => rfl
  | cons x xs ih =>
      simp only [sortInts, List.foldr_cons]
      rw [show List.foldr insertSorted [] xs = sortInts xs from rfl,
        count_insertSorted, List.count_cons, List.count_cons, ih]

theorem mem_sortInts {a : ℤ} {l : List ℤ} : a ∈ sortInts l ↔ a ∈ l := by
  rw [← List.count_pos_iff, ← List.count_pos_iff, count_sortInts]

theorem nodup_sortInts {l : List ℤ} (h : l.Nodup) : (sortInts l).Nodup := by
  rw [List.nodup_iff_count_le_one] at h ⊢
  intro a
  rw [count_sortInts]
  exact h a

theorem mem_validYears {data : List AlignedRow} {y : ℤ} :
    y ∈ validYears data ↔ y ∈ uniqueYears data ∧ 90 < yearCount data y := by
  simp [validYears, mem_sortInts, List.mem_filter]

theorem nodup_validYears (data : List AlignedRow) : (validYears data).Nodup :=
  nodup_sortInts (List.Nodup.filter _ (List.nodup_dedup _))

theorem countP_flatMap {α β : Type} (p : β → Bool) (f : α → List β)
    (l : List α) :
    (l.flatMap f).countP p = (l.map (fun a => (f a).countP p)).sum := by
  induction l with
  | nil => rfl
  | cons x xs ih => simp [List.flatMap_cons, List.countP_append, ih]

theorem length_filterMap_eq_countP {α β : Type} (f : α → Option β)
    (l : List α) :
    (l.filterMap f).length = l.countP (fun a => (f a).isSome) := by
  induction l with
  | nil => rfl
  | cons x xs ih =>
      cases hx : f x <;>
        simp [List.filterMap_cons, hx, List.countP_cons, ih]

theorem countP_filterMap_eq_count {α β : Type} [DecidableEq α]
    (f : α → Option β) (g : β → α) (l : List α)
    (h : ∀ a ∈ l, ∃ b, f a = some b ∧ g b = a) (y : α) :
    (l.filterMap f).countP (fun b => decide (g b = y)) = l.count y := by
  induction l with
  | nil => rfl
  | cons x xs ih =>
      obtain ⟨b, hb, hgb⟩ := h x (List.mem_cons_self x xs)
      rw [List.filterMap_cons, hb, List.countP_cons,
        ih (fun a ha => h a (List.mem_cons_of_mem _ ha)), hgb,
        List.count_cons]
      by_cases hxy : x = y <;> simp [hxy]

theorem sum_map_le_length_mul {α : Type} (l : List α) (f : α → ℕ) (k : ℕ)
    (h : ∀ a ∈ l, f a ≤ k) : (l.map f).sum ≤ l.length * k := by
  induction l with
  | nil => simp
  | cons x xs ih =>
      simp only [List.map_cons, List.sum_cons, List.length_cons]
      have h1 := h x (List.mem_cons_self x xs)
      have h2 := ih (fun a ha => h a (List.mem_cons_of_mem _ ha))
      calc f x + (xs.map f).sum ≤ k + xs.length * k := Nat.add_le_add h1 h2
        _ = (xs.length + 1) * k := by ring

theorem sum_map_ite_eq_countP {α : Type} (l : List α) (p : α → Bool) :
    (l.map (fun a => if p a then 1 else 0)).sum = l.countP p := by
  induction l with
  | nil => rfl
  | cons x xs ih =>
      simp only [List.map_cons, List.sum_cons, List.countP_cons, ih]
      by_cases hx : p x
      · simp [hx]
        ring
      · simp [hx]

theorem length_insertByDate (r : CorRow) (l : List CorRow) :
    (insertByDate r l).length = l.length + 1 := by
  induction l with
  | nil => rfl
  | cons x xs ih =>
      by_cases h : r.date ≤ x.date <;>
        simp [insertByDate, h, ih]

theorem length_sortByDate (l : List CorRow) :
    (sortByDate l).length = l.length := by
  induction l with
  | nil => rfl
  | cons x xs ih =>
      simp only [sortByDate, List.foldr_cons] at ih ⊢
      rw [length_insertByDate, ih, List.length_cons]

theorem length_filter_add_length_filter_not {α : Type} (p : α → Bool)
    (l : List α) :
    (l.filter p).length + (l.filter (fun a => !p a)).length = l.length := by
  induction l with
  | nil => rfl
  | cons x xs ih =>
      by_cases h : p x
      · simp [List.filter_cons, h]
        omega
      · simp [List.filter_cons, h]
        omega

theorem loocvFold_eq_some {data : List AlignedRow} {valid : List ℤ} {ty : ℤ}
    {s : Split} (h : loocvFold data valid ty = some s) :
    s.test_year = ty ∧
    s.train = data.filter
      (fun r => decide (r.year ∈ valid.filter (fun y => decide (y ≠ ty)))) ∧
    s.test = data.filter (fun r => decide (r.year = ty)) := by
  dsimp only [loocvFold] at h
  split_ifs at h with hc
  · injection h with h2
    subst h2
    exact ⟨rfl, rfl, rfl⟩

theorem exists_ne_of_two_le_length {l : List ℤ} (h2 : 2 ≤ l.length)
    (hnd : l.Nodup) (ty : ℤ) : ∃ y ∈ l, y ≠ ty := by
  match l, h2, hnd with
  | a :: b :: rest, _, hnd =>
    have hab : a ≠ b := by
      rw [List.nodup_cons] at hnd
      exact fun e => hnd.1 (e ▸ List.mem_cons_self b rest)
    by_cases ha : a = ty
    · refine ⟨b, by simp, fun e => hab ?_⟩
      rw [ha, e]
    · exact ⟨a, by simp, ha⟩

theorem loocvFold_total {data : List AlignedRow} {ty : ℤ}
    (h2 : 2 ≤ (validYears data).length) (hty : ty ∈ validYears data) :
    ∃ s, loocvFold data (validYears data) ty = some s := by
  have hcount : 90 < yearCount data ty := (mem_validYears.mp hty).2
  have htest : 0 < (data.filter (fun r => decide (r.year = ty))).length := by
    have : yearCount data ty =
        (data.filter (fun r => decide (r.year = ty))).length := rfl
    omega
  obtain ⟨y2, hy2, hne⟩ :=
    exists_ne_of_two_le_length h2 (nodup_validYears data) ty
  have hc2 : 90 < yearCount data y2 := (mem_validYears.mp hy2).2
  have hpos2 : 0 < (data.filter (fun r => decide (r.year = y2))).length := by
    have : yearCount data y2 =
        (data.filter (fun r => decide (r.year = y2))).length := rfl
    omega
  obtain ⟨r, hr⟩ := List.exists_mem_of_length_pos hpos2
  rw [List.mem_filter] at hr
  have hry : r.year = y2 := by simpa using hr.2
  have hrtrain : r ∈ data.filter
      (fun r => decide (r.year ∈
        (validYears data).filter (fun y => decide (y ≠ ty)))) := by
    rw [List.mem_filter]
    refine ⟨hr.1, ?_⟩
    simp only [decide_eq_true_eq, List.mem_filter, hry]
    exact ⟨hy2, by simpa using hne⟩
  have htrain : 0 < (data.filter
      (fun r => decide (r.year ∈
        (validYears data).filter (fun y => decide (y ≠ ty))))).length :=
    List.length_pos.mpr (List.ne_nil_of_mem hrtrain)
  exact ⟨_, by dsimp only [loocvFold]; rw [if_pos ⟨htrain, htest⟩]⟩

theorem mem_loocv_splits {data : List AlignedRow} {s : Split}
    (h : s ∈ loocv_splits data) :
    s.test_year ∈ validYears data ∧
    s.train = data.filter
      (fun r => decide (r.year ∈
        (validYears data).filter (fun y => decide (y ≠ s.test_year)))) ∧
    s.test = data.filter (fun r => decide (r.year = s.test_year)) := by
  dsimp only [loocv_splits] at h
  split_ifs at h with hlen
  · simp at h
  · rw [List.mem_filterMap] at h
    obtain ⟨ty, hty, hf⟩ := h
    obtain ⟨h1, h2, h3⟩ := loocvFold_eq_some hf
    subst h1
    exact ⟨hty, h2, h3⟩

theorem loocv_countP_test_year {data : List AlignedRow}
    (h2 : 2 ≤ (validYears data).length) {y : ℤ} (hy : y ∈ validYears data) :
    (loocv_splits data).countP
      (fun s => decide (s.test_year = y)) = 1 := by
  dsimp only [loocv_splits]
  rw [if_neg (by omega : ¬ (validYears data).length < 2)]
  rw [countP_filterMap_eq_count (loocvFold data (validYears data))
      Split.test_year (validYears data)
      (fun ty hty => by
        obtain ⟨s, hs⟩ := loocvFold_total h2 hty
        exact ⟨s, hs, (loocvFold_eq_some hs).1⟩) y]
  have hle := (List.nodup_iff_count_le_one.mp (nodup_validYears data)) y
  have hpos := List.count_pos_iff.mpr hy
  omega

theorem validPairs_length (obs sim : List (Option ℚ)) :
    (validPairs obs sim).length =
      (obs.zip sim).countP (fun p => posOpt p.1 && posOpt p.2) := by
  rw [validPairs, length_filterMap_eq_countP]
  apply List.countP_congr
  intro p _
  rcases p with ⟨o, s⟩
  cases o with
  | none => simp [posOpt]
  | some ov =>
      cases s with
      | none => simp [posOpt]
      | some sv =>
          by_cases ho : 0 < ov
          · by_cases hs : 0 < sv <;> simp [posOpt, ho, hs]
          · simp [posOpt, ho]

end HelperLemmas

section Fixtures

/-- A one-row observed table: date 0, value 1. -/
def obsT1 : List ObsRow := [{ date := 0, q_cms := some 1 }]

/-- A one-row simulated table: date 1 (shifted to 0), value 2. -/
def simT1 : List SimRow := [{ date := 1, q_raw := some 2 }]

/-- The aligned row `read_station_data` produces from `obsT1` and `simT1`
under `calTwoYears`. -/
def alignedRow1 : AlignedRow :=
  { date := 0, obs := 1 + epsilon, sim := 2 + epsilon, year := 1990,
    month := 6 }

/-- A calendar in which day 100 falls outside the correction season
(month 12) and every other day inside it (month 6). -/
def calMixed : Calendar :=
  { yearOf := fun _ => 1990
    monthOf := fun d => if d = 100 then 12 else 6 }

/-- A two-row simulated table: one in-season record (shifted date 0) and
one out-of-season record (shifted date 100, month 12 under `calMixed`). -/
def simT3 : List SimRow :=
  [{ date := 1, q_raw := some 2 }, { date := 101, q_raw := some 5 }]

/-- An adjust oracle that always succeeds with the single value 3. -/
def adjustConst : List (Option ℚ) → Option (List (Option ℚ)) :=
  fun _ => some [some 3]

/-- An adjust oracle on which every call raises. -/
def adjustNone : List (Option ℚ) → Option (List (Option ℚ)) :=
  fun _ => none

/-- Twelve pairs of which exactly nine are valid: nine positive values,
then a zero, a missing value, and a negative value. -/
def nineObs : List (Option ℚ) :=
  [some 1, some 2, some 3, some 4, some 5, some 6, some 7, some 8, some 9,
   some 0, none, some (-3)]

/-- Twelve positive partner values for `nineObs`. -/
def nineSim : List (Option ℚ) := List.replicate 12 (some 1)

end Fixtures

section Claims

/-- C7: the Split Generator returns an empty fold list whenever fewer than
2 valid years exist; a year is valid exactly when its observation count is
strictly greater than 90; and no year at or below that threshold is ever
selected, neither as a test year nor inside any training subset. -/
theorem claim_c7 (data : List AlignedRow) :
    ((validYears data).length < 2 → loocv_splits data = []) ∧
    (∀ y, y ∈ validYears data ↔
      y ∈ uniqueYears data ∧ 90 < yearCount data y) ∧
    (∀ s ∈ loocv_splits data, 90 < yearCount data s.test_year) ∧
    (∀ s ∈ loocv_splits data, ∀ r ∈ s.train, 90 < yearCount data r.year) := by
  refine ⟨?_, fun y => mem_validYears, ?_, ?_⟩
  · intro h
    dsimp only [loocv_splits]
    rw [if_pos h]
  · intro s hs
    exact (mem_validYears.mp (mem_loocv_splits hs).1).2
  · intro s hs r hr
    obtain ⟨-, h2, -⟩ := mem_loocv_splits hs
    rw [h2, List.mem_filter] at hr
    have h3 : r.year ∈ (validYears data).filter
        (fun y => decide (y ≠ s.test_year)) := by simpa using hr.2
    rw [List.mem_filter] at h3
    exact (mem_validYears.mp h3.1).2

/-- C7 witness: a series with a single qualifying year (91 observations in
1990) yields no folds. -/
theorem claim_c7_witness : loocv_splits data91 = [] :=
  (claim_c7 data91).1 (by decide)

/-- C1 counterexample: on `data91` the year 1990 is valid (91 observations,
over the threshold), yet it appears as the test year in zero folds, not
exactly one, because fewer than 2 valid years exist. -/
theorem claim_c1_counterexample :
    1990 ∈ validYears data91 ∧
    (loocv_splits data91).countP
      (fun s => decide (s.test_year = 1990)) = 0 := by
  decide

/-- C1 amended: for every fold the training years and the test year are
disjoint, and, provided at least 2 valid years exist, every valid year
appears as the test year in exactly one fold (with fewer than 2 valid
years the generator instead returns no folds at all). -/
theorem claim_c1_amended (data : List AlignedRow) :
    (∀ s ∈ loocv_splits data, ∀ r ∈ s.train, r.year ≠ s.test_year) ∧
    (2 ≤ (validYears data).length →
      ∀ y ∈ validYears data,
        (loocv_splits data).countP
          (fun s => decide (s.test_year = y)) = 1) := by
  constructor
  · intro s hs r hr
    obtain ⟨-, h2, -⟩ := mem_loocv_splits hs
    rw [h2, List.mem_filter] at hr
    have h3 : r.year ∈ (validYears data).filter
        (fun y => decide (y ≠ s.test_year)) := by simpa using hr.2
    rw [List.mem_filter] at h3
    simpa using h3.2
  · intro h2 y hy
    exact loocv_countP_test_year h2 hy

/-- C1 witness: on two valid years of 91 observations each, 1990 is the
test year of exactly one fold. -/
theorem claim_c1_witness :
    (loocv_splits data182).countP
      (fun s => decide (s.test_year = 1990)) = 1 :=
  (claim_c1_amended data182).2 (by decide) 1990 (by decide)

/-- C8: the Aligner is a pure function of its two input tables, so running
it twice on the same raw observed and simulated input yields identical
output. -/
theorem claim_c8 (cal : Calendar) (obsTab1 obsTab2 : List ObsRow)
    (simTab1 simTab2 : List SimRow) (ho : obsTab1 = obsTab2)
    (hs : simTab1 = simTab2) :
    read_station_data cal obsTab1 simTab1 =
      read_station_data cal obsTab2 simTab2 := by
  rw [ho, hs]

/-- C8 witness: the two runs on the fixture tables agree. -/
theorem claim_c8_witness :
    read_station_data calTwoYears obsT1 simT1 =
      read_station_data calTwoYears obsT1 simT1 :=
  claim_c8 calTwoYears obsT1 obsT1 simT1 simT1 rfl rfl

/-- C2: the Metric Evaluator returns its explicit no-result value `none`
exactly when fewer than 10 pairs survive the mask that drops every pair
with a non-positive or missing member; every surviving pair is strictly
positive in both components; and the 9-valid-pair input `nineObs` /
`nineSim` yields no result. -/
theorem claim_c2 (ev : Evaluators) (obs sim : List (Option ℚ)) :
    (calculate_metrics ev obs sim = none ↔
      (obs.zip sim).countP (fun p => posOpt p.1 && posOpt p.2) < 10) ∧
    (∀ p ∈ validPairs obs sim, 0 < p.1 ∧ 0 < p.2) ∧
    calculate_metrics ev nineObs nineSim = none := by
  refine ⟨?_, ?_, by rfl⟩
  · dsimp only [calculate_metrics]
    rw [List.length_map, validPairs_length]
    split_ifs with h
    · simpa using h
    · simpa using h
  · intro p hp
    rw [validPairs, List.mem_filterMap] at hp
    obtain ⟨⟨o, s⟩, -, hf⟩ := hp
    cases o with
    | none => exact absurd hf (by simp)
    | some ov =>
        cases s with
        | none => exact absurd hf (by simp)
        | some sv =>
            dsimp only at hf
            split_ifs at hf with hc
            · injection hf with hf2
              subst hf2
              exact hc

theorem read_station_data_pos (cal : Calendar) (obsTab : List ObsRow)
    (simTab : List SimRow)
    (hobs : ∀ o ∈ obsTab, 0 ≤ o.q_cms.getD 0)
    (hsim : ∀ s ∈ simTab, 0 ≤ s.q_raw.getD 0) :
    ∀ r ∈ read_station_data cal obsTab simTab, 0 < r.obs ∧ 0 < r.sim := by
  intro r hr
  dsimp only [read_station_data] at hr
  rw [List.mem_map] at hr
  obtain ⟨r0, hr0, hrr⟩ := hr
  rw [List.mem_filter] at hr0
  rw [List.mem_map] at hr0
  obtain ⟨⟨t, ht, htr⟩, -⟩ := hr0
  rw [List.mem_filterMap] at ht
  obtain ⟨u, hu, hut⟩ := ht
  rw [List.mem_flatMap] at hu
  obtain ⟨o, ho, hou⟩ := hu
  rw [List.mem_map] at hou
  obtain ⟨sx, hsx, hsu⟩ := hou
  rw [List.mem_filter, List.mem_map] at hsx
  obtain ⟨⟨s0, hs0, hss⟩, -⟩ := hsx
  subst hsu
  cases hoc : o.q_cms with
  | none => rw [hoc] at hut; exact absurd hut (by simp)
  | some ov =>
      cases hsc : sx.q_raw with
      | none => rw [hoc, hsc] at hut; exact absurd hut (by simp)
      | some sv =>
          rw [hoc, hsc] at hut
          injection hut with hut2
          subst hut2
          subst htr
          subst hrr
          have hov : 0 ≤ ov := by
            have := hobs o ho
            rw [hoc] at this
            simpa using this
          have hsv : 0 ≤ sv := by
            have h1 := hsim s0 hs0
            have h2 : sx.q_raw = s0.q_raw := by rw [← hss]
            rw [h2] at hsc
            rw [hsc] at h1
            simpa using h1
          constructor
          · show 0 < ov + epsilon
            have : (0 : ℚ) < epsilon := by norm_num [epsilon]
            linarith
          · show 0 < sv + epsilon
            have : (0 : ℚ) < epsilon := by norm_num [epsilon]
            linarith

/-- C2 witness: the 9-valid-pair input yields the explicit no-result value
under the trivial evaluators. -/
theorem claim_c2_witness : calculate_metrics evZero nineObs nineSim = none :=
  (claim_c2 evZero nineObs nineSim).2.2

/-- C6: when every present value of the raw observed and simulated tables
is non-negative, every obs and sim value of the Aligned Pair Series is
strictly positive, because the epsilon floor 0.01 is added to both columns
after dropping missing records; these are the values the Quantile-Mapping
Model and Metric Evaluator consume. -/
theorem claim_c6 (cal : Calendar) (obsTab : List ObsRow)
    (simTab : List SimRow)
    (hobs : ∀ o ∈ obsTab, 0 ≤ o.q_cms.getD 0)
    (hsim : ∀ s ∈ simTab, 0 ≤ s.q_raw.getD 0) :
    ∀ r ∈ read_station_data cal obsTab simTab, 0 < r.obs ∧ 0 < r.sim :=
  read_station_data_pos cal obsTab simTab hobs hsim

/-- C6 witness: the fixture tables produce a single aligned row with both
values strictly positive. -/
theorem claim_c6_witness : 0 < alignedRow1.obs ∧ 0 < alignedRow1.sim :=
  claim_c6 calTwoYears obsT1 simT1 (by decide) (by decide) alignedRow1
    (of_decide_eq_true (by with_unfolding_all rfl))

theorem rawResult_ctype {ev : Evaluators} {s : Split} {row : ResultRow}
    (h : rawResult ev s = some row) : row.ctype = CorrType.Raw := by
  dsimp only [rawResult] at h
  cases hm : calculate_metrics ev (s.test.map (fun r => some r.obs))
      (s.test.map (fun r => some r.sim)) with
  | none => rw [hm] at h; exact absurd h (by simp)
  | some m =>
      rw [hm] at h
      injection h with h2
      rw [← h2]

theorem dqmCell_ctype {ev : Evaluators}
    {oracle : Split → ℕ → Option (List (Option ℚ))} {s : Split} {nq : ℕ}
    {row : ResultRow} (h : dqmCell ev oracle s nq = some row) :
    row.ctype = CorrType.DQM := by
  dsimp only [dqmCell] at h
  rw [Option.bind_eq_some] at h
  obtain ⟨corrected, -, h⟩ := h
  rw [Option.map_eq_some'] at h
  obtain ⟨m, -, h⟩ := h
  rw [← h]

theorem countP_raw_splitResults (ev : Evaluators)
    (oracle : Split → ℕ → Option (List (Option ℚ))) (quantiles : List ℕ)
    (s : Split) :
    (splitResults ev oracle quantiles s).countP
        (fun row => decide (row.ctype = CorrType.Raw)) =
      if (rawResult ev s).isSome then 1 else 0 := by
  dsimp only [splitResults]
  rw [List.countP_append]
  have hcells : (quantiles.filterMap (dqmCell ev oracle s)).countP
      (fun row => decide (row.ctype = CorrType.Raw)) = 0 := by
    rw [List.countP_eq_zero]
    intro row hrow
    rw [List.mem_filterMap] at hrow
    obtain ⟨nq, -, hnq⟩ := hrow
    simp [dqmCell_ctype hnq]
  rw [hcells]
  cases hr : rawResult ev s with
  | none => simp
  | some row => simp [rawResult_ctype hr]

theorem countP_dqm_splitResults (ev : Evaluators)
    (oracle : Split → ℕ → Option (List (Option ℚ))) (quantiles : List ℕ)
    (s : Split) :
    (splitResults ev oracle quantiles s).countP
        (fun row => decide (row.ctype = CorrType.DQM)) =
      quantiles.countP (fun nq => (dqmCell ev oracle s nq).isSome) := by
  dsimp only [splitResults]
  rw [List.countP_append]
  have hraw : (rawResult ev s).toList.countP
      (fun row => decide (row.ctype = CorrType.DQM)) = 0 := by
    cases hr : rawResult ev s with
    | none => rfl
    | some row => simp [rawResult_ctype hr]
  have hcells : (quantiles.filterMap (dqmCell ev oracle s)).countP
      (fun row => decide (row.ctype = CorrType.DQM)) =
      (quantiles.filterMap (dqmCell ev oracle s)).length := by
    rw [List.countP_eq_length]
    intro row hrow
    rw [List.mem_filterMap] at hrow
    obtain ⟨nq, -, hnq⟩ := hrow
    simp [dqmCell_ctype hnq]
  rw [hraw, hcells, length_filterMap_eq_countP]
  ring

/-- C4: in the results grid assembled by the orchestrator, the number of
"Raw" rows equals the number of folds whose raw metrics are available (so
exactly N, one per fold, when metrics are available for all folds), the
number of "DQM" rows equals the number of (fold, quantile-count) cells
whose training/adjustment and metrics both succeed — a failing cell is
simply omitted without affecting the rest of the grid — and hence the
"DQM" row count is at most N×K. -/
theorem claim_c4 (cal : Calendar) (ev : Evaluators)
    (oracle : Split → ℕ → Option (List (Option ℚ)))
    (obsTab : List ObsRow) (simTab : List SimRow) (quantiles : List ℕ) :
    let splits := loocv_splits (read_station_data cal obsTab simTab)
    let results := splits.flatMap (splitResults ev oracle quantiles)
    results.countP (fun row => decide (row.ctype = CorrType.Raw)) =
        splits.countP (fun s => (rawResult ev s).isSome) ∧
      results.countP (fun row => decide (row.ctype = CorrType.DQM)) =
        (splits.map (fun s =>
          quantiles.countP
            (fun nq => (dqmCell ev oracle s nq).isSome))).sum ∧
      results.countP (fun row => decide (row.ctype = CorrType.DQM)) ≤
        splits.length * quantiles.length := by
  refine ⟨?_, ?_, ?_⟩
  · rw [countP_flatMap]
    have h1 : (fun s => (splitResults ev oracle quantiles s).countP
        (fun row => decide (row.ctype = CorrType.Raw))) =
        fun s => if (rawResult ev s).isSome then 1 else 0 :=
      funext (fun s => countP_raw_splitResults ev oracle quantiles s)
    rw [h1, sum_map_ite_eq_countP]
  · rw [countP_flatMap]
    have h1 : (fun s => (splitResults ev oracle quantiles s).countP
        (fun row => decide (row.ctype = CorrType.DQM))) =
        fun s => quantiles.countP
          (fun nq => (dqmCell ev oracle s nq).isSome) :=
      funext (fun s => countP_dqm_splitResults ev oracle quantiles s)
    rw [h1]
  · rw [countP_flatMap]
    have h1 : (fun s => (splitResults ev oracle quantiles s).countP
        (fun row => decide (row.ctype = CorrType.DQM))) =
        fun s => quantiles.countP
          (fun nq => (dqmCell ev oracle s nq).isSome) :=
      funext (fun s => countP_dqm_splitResults ev oracle quantiles s)
    rw [h1]
    exact sum_map_le_length_mul _ _ _
      (fun s _ => List.countP_le_length _)

theorem validPairs_map_some_length (rows : List AlignedRow)
    (h : ∀ r ∈ rows, 0 < r.obs ∧ 0 < r.sim) :
    (validPairs (rows.map (fun r => some r.obs))
      (rows.map (fun r => some r.sim))).length = rows.length := by
  induction rows with
  | nil => rfl
  | cons x xs ih =>
      obtain ⟨h1, h2⟩ := h x (List.mem_cons_self x xs)
      have hrest := ih (fun r hr => h r (List.mem_cons_of_mem _ hr))
      dsimp only [validPairs, List.map_cons, List.zip_cons_cons,
        List.filterMap_cons] at hrest ⊢
      rw [if_pos ⟨h1, h2⟩]
      rw [List.length_cons, hrest]
      simp

/-- C5: on raw tables whose present values are all non-negative (the data
model of a discharge record), the per-gauge orchestration returns one of
the three statuses — row count on success, "No Data", "Insufficient
Data" — to its caller; in the embedding `process_station` is a total
function into `StationStatus`, so it never raises. -/
theorem claim_c5 (cal : Calendar) (ev : Evaluators)
    (oracle : Split → ℕ → Option (List (Option ℚ)))
    (obsTab : List ObsRow) (simTab : List SimRow) (quantiles : List ℕ)
    (hobs : ∀ o ∈ obsTab, 0 ≤ o.q_cms.getD 0)
    (hsim : ∀ s ∈ simTab, 0 ≤ s.q_raw.getD 0) :
    isTriState (process_station cal ev oracle obsTab simTab quantiles) =
      true := by
  dsimp only [process_station]
  by_cases h0 : (read_station_data cal obsTab simTab).length = 0
  · rw [if_pos h0]
    rfl
  · rw [if_neg h0]
    by_cases h1 : (loocv_splits (read_station_data cal obsTab simTab)).length = 0
    · rw [if_pos h1]
      rfl
    · rw [if_neg h1]
      obtain ⟨s, hs⟩ := List.exists_mem_of_length_pos (Nat.pos_of_ne_zero h1)
      obtain ⟨hvalid, -, htest⟩ := mem_loocv_splits hs
      have hpos : ∀ r ∈ s.test, 0 < r.obs ∧ 0 < r.sim := by
        intro r hr
        rw [htest, List.mem_filter] at hr
        exact read_station_data_pos cal obsTab simTab hobs hsim r hr.1
      have hlen : 10 ≤ s.test.length := by
        have hy : 90 < yearCount (read_station_data cal obsTab simTab)
            s.test_year := (mem_validYears.mp hvalid).2
        have he : s.test.length = yearCount
            (read_station_data cal obsTab simTab) s.test_year := by
          rw [htest]
          rfl
        omega
      have hcm : (calculate_metrics ev (s.test.map (fun r => some r.obs))
          (s.test.map (fun r => some r.sim))).isSome = true := by
        dsimp only [calculate_metrics]
        rw [List.length_map, validPairs_map_some_length s.test hpos,
          if_neg (by omega)]
        rfl
      have hrs : (rawResult ev s).isSome = true := by
        dsimp only [rawResult]
        simpa using hcm
      obtain ⟨row0, hrow⟩ := Option.isSome_iff_exists.mp hrs
      have hmem : row0 ∈
          (loocv_splits (read_station_data cal obsTab simTab)).flatMap
            (splitResults ev oracle quantiles) := by
        rw [List.mem_flatMap]
        refine ⟨s, hs, ?_⟩
        dsimp only [splitResults]
        rw [hrow]
        exact List.mem_append_left _ (List.mem_singleton.mpr rfl)
      have hres : ((loocv_splits (read_station_data cal obsTab simTab)).flatMap
          (splitResults ev oracle quantiles)).length ≠ 0 := by
        intro hzero
        rw [List.length_eq_zero] at hzero
        rw [hzero] at hmem
        exact absurd hmem (List.not_mem_nil row0)
      rw [if_neg hres]
      rfl

/-- C5 witness: a two-valid-year station with constant positive values
returns a tri-state status (here a success row count) even when every DQM
cell fails. -/
theorem claim_c5_witness :
    isTriState (process_station calTwoYears evZero oracleFail obsTabPos
      simTabPos [1]) = true :=
  claim_c5 calTwoYears evZero oracleFail obsTabPos simTabPos [1]
    (by decide) (by decide)

theorem corRow_strip (o : Option ℚ) :
    (o.map (fun v => v + epsilon)).map (fun x => max (x - epsilon) 0) =
      o.map (fun x => max x 0) := by
  cases o with
  | none => rfl
  | some v =>
      simp only [Option.map_some']
      rw [add_sub_cancel_right]

theorem rawOnly_rows_eq (cal : Calendar) (simTab : List SimRow) :
    ((read_all_raw_data simTab).filter
        (fun r => !(decide (cal.monthOf r.date ∈ correctionMonths)))).map
      (fun r => ({ date := r.date,
                   q_cor := r.sim.map (fun x => max (x - epsilon) 0) } : CorRow)) =
    (simTab.filter
        (fun s => !(decide (cal.monthOf (s.date - 1) ∈ correctionMonths)))).map
      (fun s => ({ date := s.date - 1,
                   q_cor := s.q_raw.map (fun x => max x 0) } : CorRow)) := by
  induction simTab with
  | nil => rfl
  | cons s ss ih =>
      dsimp only [read_all_raw_data, List.map_cons] at ih ⊢
      rw [List.filter_cons, List.filter_cons]
      by_cases hm : cal.monthOf (s.date - 1) ∈ correctionMonths
      · rw [if_neg (by simp [hm]), if_neg (by simp [hm])]
        exact ih
      · rw [if_pos (by simp [hm]), if_pos (by simp [hm]), List.map_cons,
          List.map_cons, ih, corRow_strip]

/-- C3: in both correction paths, when the DQM adjustment succeeds the
written correction table is exactly the sort by date of (a) the
correction-season rows, each carrying the adjusted value with the epsilon
floor 0.01 subtracted and clamped at zero, and (b) one row per
out-of-season raw record (months other than May–September) carrying the
raw simulated value unmodified apart from the epsilon handling (added and
removed in `correct_station`, never added in `correct_new_data`) and the
non-negative clamp, so each out-of-season value is `max(raw, 0)`. -/
theorem claim_c3 (cal : Calendar)
    (adjust : List (Option ℚ) → Option (List (Option ℚ)))
    (adj : List (Option ℚ) → Option (List (Option ℚ)))
    (obsTab : List ObsRow) (simTab : List SimRow) (raw : List SimRow)
    (vals vals2 : List (Option ℚ))
    (htrain : (read_station_data cal obsTab simTab).length ≠ 0)
    (hraw : (read_all_raw_data simTab).length ≠ 0)
    (hadj : adjust (((read_all_raw_data simTab).filter
        (fun r => decide (cal.monthOf r.date ∈ correctionMonths))).map
        (fun r => r.sim)) = some vals)
    (hlen : vals.length = ((read_all_raw_data simTab).filter
        (fun r => decide (cal.monthOf r.date ∈ correctionMonths))).length)
    (hadj2 : adj (((raw.map (fun r => (r.date - 1, r.q_raw))).filter
        (fun p => decide (cal.monthOf p.1 ∈ correctionMonths))).map
        (fun p => p.2.map (fun v => v + epsilon))) = some vals2)
    (hlen2 : vals2.length =
      ((raw.map (fun r => (r.date - 1, r.q_raw))).filter
        (fun p => decide (cal.monthOf p.1 ∈ correctionMonths))).length) :
    correct_station cal adjust obsTab simTab =
      some (sortByDate
        (List.zipWith
          (fun (r : RawSimRow) (v : Option ℚ) =>
            ({ date := r.date,
               q_cor := v.map (fun x => max (x - epsilon) 0) } : CorRow))
          ((read_all_raw_data simTab).filter
            (fun r => decide (cal.monthOf r.date ∈ correctionMonths)))
          vals ++
         (simTab.filter
            (fun s => !(decide (cal.monthOf (s.date - 1) ∈
              correctionMonths)))).map
           (fun s => ({ date := s.date - 1,
                        q_cor := s.q_raw.map (fun x => max x 0) } : CorRow)))) ∧
    correct_new_data cal (some adj) raw =
      sortByDate
        (List.zipWith
          (fun (p : ℤ × Option ℚ) (v : Option ℚ) =>
            ({ date := p.1,
               q_cor := v.map (fun x => max (x - epsilon) 0) } : CorRow))
          ((raw.map (fun r => (r.date - 1, r.q_raw))).filter
            (fun p => decide (cal.monthOf p.1 ∈ correctionMonths)))
          vals2 ++
         ((raw.map (fun r => (r.date - 1, r.q_raw))).filter
            (fun p => !(decide (cal.monthOf p.1 ∈ correctionMonths)))).map
           (fun p => ({ date := p.1,
                        q_cor := p.2.map (fun x => max x 0) } : CorRow))) := by
  constructor
  · dsimp only [correct_station]
    rw [if_neg htrain, if_neg hraw]
    by_cases htc : 0 < ((read_all_raw_data simTab).filter
        (fun r => decide (cal.monthOf r.date ∈ correctionMonths))).length
    · rw [if_pos htc, hadj]
      dsimp only [appliedCorrection]
      rw [if_pos hlen, rawOnly_rows_eq]
    · rw [if_neg htc]
      have htc0 : (read_all_raw_data simTab).filter
          (fun r => decide (cal.monthOf r.date ∈ correctionMonths)) = [] := by
        rw [← List.length_eq_zero]
        omega
      rw [htc0, List.zipWith_nil_left, rawOnly_rows_eq]
  · dsimp only [correct_new_data]
    by_cases h0 : raw.length = 0
    · rw [if_pos h0]
      have h1 : raw = [] := List.length_eq_zero.mp h0
      subst h1
      rfl
    · rw [if_neg h0]
      by_cases htc : 0 < ((raw.map (fun r => (r.date - 1, r.q_raw))).filter
          (fun p => decide (cal.monthOf p.1 ∈ correctionMonths))).length
      · rw [if_pos htc]
        have hb : (some adj).bind (fun a =>
            a (((raw.map (fun r => (r.date - 1, r.q_raw))).filter
              (fun p => decide (cal.monthOf p.1 ∈ correctionMonths))).map
              (fun p => p.2.map (fun v => v + epsilon)))) = some vals2 := by
          rw [Option.some_bind]
          exact hadj2
        rw [hb]
        dsimp only [appliedNewCorrection]
        rw [if_pos hlen2]
        rfl
      · rw [if_neg htc]
        have htc0 : (raw.map (fun r => (r.date - 1, r.q_raw))).filter
            (fun p => decide (cal.monthOf p.1 ∈ correctionMonths)) = [] := by
          rw [← List.length_eq_zero]
          omega
        rw [htc0, List.zipWith_nil_left]
        rfl

/-- C3 witness: one in-season and one out-of-season raw record fed to
both correction paths; the in-season row carries the adjusted value with
epsilon removed and clamped, the out-of-season row the raw value clamped
at zero. -/
theorem claim_c3_witness :
    (correct_station calMixed adjustConst obsT1 simT3 =
      some (sortByDate
        (List.zipWith
          (fun (r : RawSimRow) (v : Option ℚ) =>
            ({ date := r.date,
               q_cor := v.map (fun x => max (x - epsilon) 0) } : CorRow))
          ((read_all_raw_data simT3).filter
            (fun r => decide (calMixed.monthOf r.date ∈ correctionMonths)))
          [some 3] ++
         (simT3.filter
            (fun s => !(decide (calMixed.monthOf (s.date - 1) ∈
              correctionMonths)))).map
           (fun s => ({ date := s.date - 1,
                        q_cor := s.q_raw.map (fun x => max x 0) } : CorRow))))) ∧
    correct_new_data calMixed (some adjustConst) simT3 =
      sortByDate
        (List.zipWith
          (fun (p : ℤ × Option ℚ) (v : Option ℚ) =>
            ({ date := p.1,
               q_cor := v.map (fun x => max (x - epsilon) 0) } : CorRow))
          ((simT3.map (fun r => (r.date - 1, r.q_raw))).filter
            (fun p => decide (calMixed.monthOf p.1 ∈ correctionMonths)))
          [some 3] ++
         ((simT3.map (fun r => (r.date - 1, r.q_raw))).filter
            (fun p => !(decide (calMixed.monthOf p.1 ∈
              correctionMonths)))).map
           (fun p => ({ date := p.1,
                        q_cor := p.2.map (fun x => max x 0) } : CorRow))) :=
  claim_c3 calMixed adjustConst adjustConst obsT1 simT3 simT3 [some 3]
    [some 3] (by decide) (by decide) rfl (by decide) rfl (by decide)

/-- C9: when the DQM train/adjust call raises, the correction-season rows
are not dropped: the output is the sorted concatenation of the fallback
rows (`q_cor = sim - epsilon`, `dqmFallback`) with the out-of-season rows,
and its row count equals the number of input raw-data rows. -/
theorem claim_c9 (cal : Calendar)
    (adjust : List (Option ℚ) → Option (List (Option ℚ)))
    (obsTab : List ObsRow) (simTab : List SimRow)
    (htrain : (read_station_data cal obsTab simTab).length ≠ 0)
    (hraw : (read_all_raw_data simTab).length ≠ 0)
    (hadj : adjust (((read_all_raw_data simTab).filter
        (fun r => decide (cal.monthOf r.date ∈ correctionMonths))).map
        (fun r => r.sim)) = none) :
    correct_station cal adjust obsTab simTab =
      some (sortByDate
        (dqmFallback ((read_all_raw_data simTab).filter
            (fun r => decide (cal.monthOf r.date ∈ correctionMonths))) ++
         ((read_all_raw_data simTab).filter
            (fun r => !(decide (cal.monthOf r.date ∈
              correctionMonths)))).map
           (fun r => ({ date := r.date,
                        q_cor := r.sim.map (fun x => max (x - epsilon) 0) } :
             CorRow)))) ∧
    (sortByDate
        (dqmFallback ((read_all_raw_data simTab).filter
            (fun r => decide (cal.monthOf r.date ∈ correctionMonths))) ++
         ((read_all_raw_data simTab).filter
            (fun r => !(decide (cal.monthOf r.date ∈
              correctionMonths)))).map
           (fun r => ({ date := r.date,
                        q_cor := r.sim.map (fun x => max (x - epsilon) 0) } :
             CorRow)))).length = simTab.length := by
  constructor
  · dsimp only [correct_station]
    rw [if_neg htrain, if_neg hraw]
    by_cases htc : 0 < ((read_all_raw_data simTab).filter
        (fun r => decide (cal.monthOf r.date ∈ correctionMonths))).length
    · rw [if_pos htc, hadj]
      rfl
    · rw [if_neg htc]
      have htc0 : (read_all_raw_data simTab).filter
          (fun r => decide (cal.monthOf r.date ∈ correctionMonths)) = [] := by
        rw [← List.length_eq_zero]
        omega
      rw [htc0]
      rfl
  · rw [length_sortByDate, List.length_append]
    have h1 : (dqmFallback ((read_all_raw_data simTab).filter
        (fun r => decide (cal.monthOf r.date ∈ correctionMonths)))).length =
        ((read_all_raw_data simTab).filter
          (fun r => decide (cal.monthOf r.date ∈
            correctionMonths))).length := List.length_map _ _
    have h2 : (((read_all_raw_data simTab).filter
        (fun r => !(decide (cal.monthOf r.date ∈
          correctionMonths)))).map
        (fun r => ({ date := r.date,
                     q_cor := r.sim.map (fun x => max (x - epsilon) 0) } :
          CorRow))).length =
        ((read_all_raw_data simTab).filter
          (fun r => !(decide (cal.monthOf r.date ∈
            correctionMonths)))).length := List.length_map _ _
    have h3 : ((read_all_raw_data simTab).filter
        (fun r => decide (cal.monthOf r.date ∈ correctionMonths))).length +
        ((read_all_raw_data simTab).filter
          (fun r => !(decide (cal.monthOf r.date ∈
            correctionMonths)))).length =
        (read_all_raw_data simTab).length :=
      length_filter_add_length_filter_not _ _
    have h4 : (read_all_raw_data simTab).length = simTab.length :=
      List.length_map _ _
    omega

/-- C9 witness: with an always-raising adjust oracle, both rows of the
two-row raw table appear in the output, the in-season one as its fallback
value. -/
theorem claim_c9_witness :
    correct_station calMixed adjustNone obsT1 simT3 =
      some (sortByDate
        (dqmFallback ((read_all_raw_data simT3).filter
            (fun r => decide (calMixed.monthOf r.date ∈ correctionMonths))) ++
         ((read_all_raw_data simT3).filter
            (fun r => !(decide (calMixed.monthOf r.date ∈
              correctionMonths)))).map
           (fun r => ({ date := r.date,
                        q_cor := r.sim.map (fun x => max (x - epsilon) 0) } :
             CorRow)))) ∧
    (sortByDate
        (dqmFallback ((read_all_raw_data simT3).filter
            (fun r => decide (calMixed.monthOf r.date ∈ correctionMonths))) ++
         ((read_all_raw_data simT3).filter
            (fun r => !(decide (calMixed.monthOf r.date ∈
              correctionMonths)))).map
           (fun r => ({ date := r.date,
                        q_cor := r.sim.map (fun x => max (x - epsilon) 0) } :
             CorRow)))).length = simT3.length :=
  claim_c9 calMixed adjustNone obsT1 simT3 (by decide) (by decide) rfl

/-- C10: the operational correction of new data is a total function (it
never propagates an exception) and returns the empty table — whose rows
would have exactly the fields `date` and `q_cor` — for an empty input,
for a missing persisted model file, and for a failing adjustment call. -/
theorem claim_c10 (cal : Calendar)
    (loadAdjust : Option (List (Option ℚ) → Option (List (Option ℚ))))
    (raw : List SimRow) :
    (raw = [] → correct_new_data cal loadAdjust raw = []) ∧
    (0 < ((raw.map (fun r => (r.date - 1, r.q_raw))).filter
        (fun p => decide (cal.monthOf p.1 ∈ correctionMonths))).length →
      loadAdjust = none → correct_new_data cal loadAdjust raw = []) ∧
    (∀ adj, loadAdjust = some adj →
      adj (((raw.map (fun r => (r.date - 1, r.q_raw))).filter
          (fun p => decide (cal.monthOf p.1 ∈ correctionMonths))).map
          (fun p => p.2.map (fun v => v + epsilon))) = none →
      0 < ((raw.map (fun r => (r.date - 1, r.q_raw))).filter
        (fun p => decide (cal.monthOf p.1 ∈ correctionMonths))).length →
      correct_new_data cal loadAdjust raw = []) := by
  have hne : 0 < ((raw.map (fun r => (r.date - 1, r.q_raw))).filter
      (fun p => decide (cal.monthOf p.1 ∈ correctionMonths))).length →
      ¬ raw.length = 0 := by
    intro htc h0
    rw [List.length_eq_zero] at h0
    subst h0
    simp at htc
  refine ⟨?_, ?_, ?_⟩
  · intro h
    subst h
    rfl
  · intro htc hload
    subst hload
    dsimp only [correct_new_data]
    rw [if_neg (hne htc), if_pos htc]
    rfl
  · intro adj hload hadj htc
    subst hload
    dsimp only [correct_new_data]
    rw [if_neg (hne htc), if_pos htc]
    have hb : (some adj).bind (fun a =>
        a (((raw.map (fun r => (r.date - 1, r.q_raw))).filter
          (fun p => decide (cal.monthOf p.1 ∈ correctionMonths))).map
          (fun p => p.2.map (fun v => v + epsilon)))) = none := by
      rw [Option.some_bind]
      exact hadj
    rw [hb]
    rfl

/-- C10 witness: a one-row in-season input with a missing persisted model
yields the empty table. -/
theorem claim_c10_witness : correct_new_data calTwoYears none simT1 = [] :=
  (claim_c10 calTwoYears none simT1).2.1 (by decide) rfl

end Claims

end Glofas
